import Mathlib

/-!
# KubeDevice: device advertiser (kubecri/pkg/kubeadvertise/advertise_device.go)

A shallow embedding of `DeviceAdvertiser.patchResources`,
`DeviceAdvertiser.AdvertiseLoop` and `GetHostName`.

* Go maps are lookup functions `String → Option V` together with the nil map;
  assignment into the nil map panics, as in Go.
* Go values are immutable Lean values, so `DeepCopy` is the identity on values
  and the binding `node` can never be changed through `newNode`.
* Everything outside the package (API server, device manager, clock, tickers,
  hostname and interface lookup) is an explicit input: the stored node record
  is threaded as state, the answers of the collaborators are passed in.
* A ghost trace records the collaborator calls that were issued, a ghost log
  records every `patchResources` attempt made by the loop.
-/

namespace KubeAdvertise

/-! ## Go runtime values -/

/-- Go `error` values: those handed back by a collaborator, and those built
by `fmt.Errorf(format, name, cause)`. -/
inductive GoError where
  | external (msg : String)
  | errorf (format : String) (name : String) (cause : GoError)
  deriving DecidableEq, Repr

/-- Run-time panics reachable from this package. -/
inductive Panic where
  /-- The panic "assignment to entry in nil map". -/
  | assignmentToEntryInNilMap
  /-- The panic "non-positive interval for NewTicker". -/
  | nonPositiveTickerInterval
  deriving DecidableEq, Repr

/-- A Go map with string keys: the nil map, or a lookup function. -/
inductive GoMap (V : Type) where
  | nil : GoMap V
  | mk (entries : String → Option V) : GoMap V

/-- Index expression `m[k]` with the comma-ok result; reading nil finds nothing. -/
def GoMap.get? {V : Type} : GoMap V → String → Option V
  | .nil, _ => none
  | .mk f, k => f k

/-- Test `m == nil`. -/
def GoMap.isNil {V : Type} : GoMap V → Bool
  | .nil => true
  | .mk _ => false

/-- Assignment `m[k] = v`; panics on the nil map. -/
def GoMap.assign {V : Type} : GoMap V → String → V → Except Panic (GoMap V)
  | .nil, _, _ => .error .assignmentToEntryInNilMap
  | .mk f, k, v => .ok (.mk (fun k' => if k' = k then some v else f k'))

/-! ## k8s.io/apimachinery: quantities, object metadata, nodes -/

/-- The type `resource.Format`. -/
inductive Format where
  | DecimalSI
  | BinarySI
  | DecimalExponent
  deriving DecidableEq, Repr

/-- The type `resource.Quantity` holding an int64 amount. -/
structure Quantity where
  value : Int
  format : Format
  deriving DecidableEq, Repr

/-- The constructor `resource.NewQuantity(value, format)`. -/
def NewQuantity (value : Int) (format : Format) : Quantity :=
  { value := value, format := format }

/-- The fields of `metav1.ObjectMeta` used here. -/
structure ObjectMeta where
  Name : String
  Annotations : GoMap String

/-- The fields of `kubev1.NodeStatus` used here. -/
structure NodeStatus where
  Capacity : GoMap Quantity
  Allocatable : GoMap Quantity

/-- The type `kubev1.Node`. -/
structure Node where
  ObjectMeta : ObjectMeta
  Status : NodeStatus

/-- The method `node.DeepCopy()`: a copy sharing nothing with the receiver. -/
def Node.DeepCopy (node : Node) : Node := node

/-! ## KubeDevice-API: device snapshot -/

/-- The type `types.ResourceList` (`map[ResourceName]int64`) as the sequence in
which a `range` loop visits it; a Go map holds every key once. -/
structure ResourceList where
  entries : List (String × Int)
  nodup : (entries.map Prod.fst).Nodup

/-- The empty resource list. -/
def ResourceList.empty : ResourceList :=
  { entries := [], nodup := List.nodup_nil }

/-- The value stored under `key` among the entries of a map. -/
def lookupEntry (entries : List (String × Int)) (key : String) : Option Int :=
  (entries.find? (fun e => e.1 == key)).map Prod.snd

/-- Index expression `rl[key]` with the comma-ok result. -/
def ResourceList.get? (rl : ResourceList) (key : String) : Option Int :=
  lookupEntry rl.entries key

/-- The fields of `types.NodeInfo` read by this package. -/
structure NodeInfo where
  Name : String
  KubeCap : ResourceList
  KubeAlloc : ResourceList

/-- The constructor `types.NewNodeInfoWithName(name)`. -/
def NewNodeInfoWithName (name : String) : NodeInfo :=
  { Name := name, KubeCap := ResourceList.empty, KubeAlloc := ResourceList.empty }

/-! ## Collaborators of `patchResources` -/

/-- The annotation codec of package kubeinterface: the annotation key it owns
and its serialisation of a node info. -/
structure AnnotationCodec where
  key : String
  encode : NodeInfo → String

/-- Modelled from the spec: `kubeinterface.NodeInfoToAnnotation` (package
kubeinterface is not among the sources). Section 6 describes it as an "opaque
serialization into the record's annotation field": the serialised node info is
stored under the codec's annotation key, the other annotations are kept. -/
def NodeInfoToAnnotation (codec : AnnotationCodec) (objMeta : ObjectMeta)
    (nodeInfo : NodeInfo) : ObjectMeta :=
  { objMeta with
    Annotations := GoMap.mk (fun k =>
      if k = codec.key then some (codec.encode nodeInfo) else objMeta.Annotations.get? k) }

/-- What the collaborators answer during one call of `patchResources`. -/
structure Env where
  /-- Error of `KubeClient.CoreV1().Nodes().Get`, if the fetch fails. -/
  getErr : Option GoError
  /-- The method `DevMgr.UpdateNodeInfo`: fills the node info with the current snapshot. -/
  UpdateNodeInfo : NodeInfo → NodeInfo
  /-- Answer of the API server to the patch request: the error, or the node
  record it stores from then on. -/
  patchResponse : Except GoError Node

/-- Ghost trace entry: a call issued to a collaborator. -/
inductive Call where
  | getNode (name : String)
  | updateNodeInfo (name : String)
  | patchNodeMetadata (name : String) (oldNode newNode : Node)

/-- The world outside the process: the node record stored by the API server
and the ghost trace of collaborator calls, oldest first. -/
structure World where
  remote : Node
  calls : List Call

/-- Modelled from the spec: `kubeinterface.PatchNodeMetadata` (package
kubeinterface is not among the sources). Section 4.1 step 6: "Submit a patch
request computed as the semantic difference between original and copy. Fails
with RemoteError on network/authorization failure; the remote record is
unchanged on failure". On success the API server stores the record it answers
with. Returns the error and the stored record afterwards. -/
def PatchNodeMetadata (response : Except GoError Node) (remote : Node)
    (_nodeName : String) (_oldNode _newNode : Node) : Option GoError × Node :=
  match response with
  | .error err => (some err, remote)
  | .ok stored => (none, stored)

/-- The receiver type `DeviceAdvertiser`; the client and device manager handles
are represented by `Env` and `World`. -/
structure DeviceAdvertiser where
  nodeName : String

/-- The loops `for key, val := range rl { m[key] = *resource.NewQuantity(val, resource.DecimalSI) }`
of `patchResources` (lines 62-67). -/
def writeResources : GoMap Quantity → List (String × Int) → Except Panic (GoMap Quantity)
  | m, [] => .ok m
  | m, (key, val) :: rest =>
    match m.assign key (NewQuantity val Format.DecimalSI) with
    | .error p => .error p
    | .ok m' => writeResources m' rest

/-- Lines 54-67 of `patchResources`: the modified record built from the fetched
one and the snapshot. -/
def updatedNode (codec : AnnotationCodec) (node : Node) (nodeInfo : NodeInfo) :
    Except Panic Node :=
  let newNode := node.DeepCopy
  let newNode := { newNode with ObjectMeta := NodeInfoToAnnotation codec newNode.ObjectMeta nodeInfo }
  match writeResources newNode.Status.Capacity nodeInfo.KubeCap.entries with
  | .error p => .error p
  | .ok cap =>
    let newNode := { newNode with Status := { newNode.Status with Capacity := cap } }
    match writeResources newNode.Status.Allocatable nodeInfo.KubeAlloc.entries with
    | .error p => .error p
    | .ok alloc =>
      .ok { newNode with Status := { newNode.Status with Allocatable := alloc } }

/-- The snapshot the device manager hands out during a call. -/
def snapshot (da : DeviceAdvertiser) (env : Env) : NodeInfo :=
  env.UpdateNodeInfo (NewNodeInfoWithName da.nodeName)

/-- The method `DeviceAdvertiser.patchResources` (lines 46-79). The result is
the returned error (`none` for nil) and the world afterwards, or the panic. -/
def patchResources (da : DeviceAdvertiser) (codec : AnnotationCodec) (env : Env)
    (w : World) : Except Panic (Option GoError × World) :=
  let w := { w with calls := w.calls ++ [Call.getNode da.nodeName] }
  match env.getErr with
  | some err =>
    .ok (some (GoError.errorf "error getting current node %q: %v" da.nodeName err), w)
  | none =>
    let node := w.remote
    let nodeInfo := snapshot da env
    let w := { w with calls := w.calls ++ [Call.updateNodeInfo da.nodeName] }
    match updatedNode codec node nodeInfo with
    | .error p => .error p
    | .ok newNode =>
      let w := { w with calls := w.calls ++ [Call.patchNodeMetadata da.nodeName node newNode] }
      match PatchNodeMetadata env.patchResponse w.remote da.nodeName node newNode with
      | (some err, remote) => .ok (some err, { w with remote := remote })
      | (none, remote) => .ok (none, { w with remote := remote })

/-! ## Clock and tickers (package time) -/

/-- Two-complement wrap-around of int64 arithmetic. -/
def int64Wrap (x : Int) : Int := (x + 2 ^ 63) % 2 ^ 64 - 2 ^ 63

/-- The constant `time.Millisecond`, in nanoseconds. -/
def Millisecond : Int := 1000000

/-- The expression `time.Duration(ms) * time.Millisecond` (lines 82 and 91). -/
def msDuration (ms : Int) : Int := int64Wrap (ms * Millisecond)

/-- Largest `time.Duration`. -/
def maxDuration : Int := 2 ^ 63 - 1

/-- Smallest `time.Duration`. -/
def minDuration : Int := -(2 ^ 63)

/-- The function `time.Since(t)` evaluated when the monotonic clock reads `now`:
the difference of the readings, saturated to the range of `time.Duration`. -/
def Since (now t : Int) : Int :=
  if now - t > maxDuration then maxDuration
  else if now - t < minDuration then minDuration
  else now - t

/-! ## `AdvertiseLoop` as a state machine -/

/-- Arguments of `AdvertiseLoop` together with its receiver. -/
structure LoopArgs where
  da : DeviceAdvertiser
  codec : AnnotationCodec
  intervalMs : Int
  tryAgainIntervalMs : Int

/-- The value `intervalDuration` of line 82. -/
def LoopArgs.intervalDuration (a : LoopArgs) : Int := msDuration a.intervalMs

/-- The period of `tickChanOnErr` (line 91). -/
def LoopArgs.tryAgainDuration (a : LoopArgs) : Int := msDuration a.tryAgainIntervalMs

/-- Where the goroutine is: blocked in the outer `select` (line 86), blocked in
the inner `select` (line 93), returned, or crashed by a panic. The waiting
states carry the variable `lastSuccessfulPatch`. -/
inductive Ctl where
  | normal (lastSuccessfulPatch : Int)
  | retry (lastSuccessfulPatch : Int)
  | returned
  | panicked (p : Panic)
  deriving DecidableEq, Repr

/-- What a `select` receives. `tick` is the case of the ticker the loop is
waiting on (`tickChan` in normal, `tickChanOnErr` in retry): `now` is the clock
reading when the case body starts, `env` what the collaborators answer should
`patchResources` be called, `finish` the clock reading when that call returns.
`done` is the case `<-done`. -/
inductive Event where
  | tick (now : Int) (env : Env) (finish : Int)
  | done

/-- Ghost log entry: one call of `patchResources` made by the loop. -/
structure Attempt where
  start : Int
  finish : Int
  inRetry : Bool
  succeeded : Bool
  deriving DecidableEq, Repr

/-- State of the loop: control point, outside world, ghost log (oldest first). -/
structure LoopState where
  ctl : Ctl
  world : World
  attempts : List Attempt

/-- Lines 82-84: the state in which the loop first blocks, when it is entered
at clock reading `now`. `time.NewTicker` panics on a non-positive period. -/
def start (a : LoopArgs) (now : Int) (w : World) : LoopState :=
  if a.intervalDuration ≤ 0 then
    { ctl := Ctl.panicked Panic.nonPositiveTickerInterval, world := w, attempts := [] }
  else
    { ctl := Ctl.normal now, world := w, attempts := [] }

/-- One pass from a `select` to the next `select` (lines 85-112); `none` when
the goroutine is not waiting any more. -/
def step (a : LoopArgs) (s : LoopState) : Event → Option LoopState
  | Event.done =>
    match s.ctl with
    | Ctl.normal _ => some { s with ctl := Ctl.returned }
    | Ctl.retry _ => some { s with ctl := Ctl.returned }
    | Ctl.returned => none
    | Ctl.panicked _ => none
  | Event.tick now env finish =>
    match s.ctl with
    | Ctl.normal lastSuccessfulPatch =>
      if Since now lastSuccessfulPatch > a.intervalDuration then
        match patchResources a.da a.codec env s.world with
        | .error p =>
          some { s with
            ctl := Ctl.panicked p,
            attempts := s.attempts ++ [{ start := now, finish := finish, inRetry := false, succeeded := false }] }
        | .ok (some _, w) =>
          let log := s.attempts ++ [{ start := now, finish := finish, inRetry := false, succeeded := false }]
          if a.tryAgainDuration ≤ 0 then
            some { ctl := Ctl.panicked Panic.nonPositiveTickerInterval, world := w, attempts := log }
          else
            some { ctl := Ctl.retry lastSuccessfulPatch, world := w, attempts := log }
        | .ok (none, w) =>
          some { ctl := Ctl.normal finish, world := w,
                 attempts := s.attempts ++ [{ start := now, finish := finish, inRetry := false, succeeded := true }] }
      else some s
    | Ctl.retry lastSuccessfulPatch =>
      match patchResources a.da a.codec env s.world with
      | .error p =>
        some { s with
          ctl := Ctl.panicked p,
          attempts := s.attempts ++ [{ start := now, finish := finish, inRetry := true, succeeded := false }] }
      | .ok (some _, w) =>
        some { ctl := Ctl.retry lastSuccessfulPatch, world := w,
               attempts := s.attempts ++ [{ start := now, finish := finish, inRetry := true, succeeded := false }] }
      | .ok (none, w) =>
        some { ctl := Ctl.normal lastSuccessfulPatch, world := w,
               attempts := s.attempts ++ [{ start := now, finish := finish, inRetry := true, succeeded := true }] }
    | Ctl.returned => none
    | Ctl.panicked _ => none

/-- The loop fed with the events its `select` statements receive, in order;
events left over once the goroutine stopped are never received. -/
def run (a : LoopArgs) : LoopState → List Event → LoopState
  | s, [] => s
  | s, e :: es =>
    match step a s e with
    | none => s
    | some s' => run a s' es

/-- The method `DeviceAdvertiser.AdvertiseLoop` (lines 81-113), entered at clock
reading `now` in world `w`. -/
def AdvertiseLoop (a : LoopArgs) (now : Int) (w : World) (events : List Event) : LoopState :=
  run a (start a now w) events

/-- The event makes the loop call `patchResources`: the ghost log grows by one entry. -/
def attemptMade (a : LoopArgs) (s : LoopState) (e : Event) : Bool :=
  match step a s e with
  | some s' => decide (s'.attempts.length = s.attempts.length + 1)
  | none => false

/-- The fields of `options.KubeletFlags` read by `GetHostName`. -/
structure KubeletFlags where
  HostnameOverride : String
  NodeIP : String

/-- The type `net.IP`, a byte slice; `none` is the nil slice. -/
abbrev IP := Option (List Nat)

/-- The host as seen by `GetHostName`. -/
structure Host where
  /-- The function `nodeutil.GetHostname`. -/
  GetHostname : String → String × Option GoError
  /-- The function `net.ParseIP`; nil when the text is no IP literal. -/
  ParseIP : String → IP
  /-- The result of `utilnet.ChooseHostInterface()`. -/
  ChooseHostInterface : IP × Option GoError
  /-- The method `net.IP.String`. -/
  ipString : IP → String

/-- The function `GetHostName` (lines 115-139): resolved IP, node name, error. -/
def GetHostName (h : Host) (f : KubeletFlags) : String × String × Option GoError :=
  match h.GetHostname f.HostnameOverride with
  | (nodeName, some err) => ("", nodeName, some err)
  | (nodeName, none) =>
    if f.NodeIP ≠ "" then
      (f.NodeIP, nodeName, none)
    else
      match h.ParseIP nodeName with
      | some addr => (h.ipString (some addr), nodeName, none)
      | none =>
        match h.ChooseHostInterface with
        | (_, some err) => ("", nodeName, some err)
        | (addr, none) => (h.ipString addr, nodeName, none)

/-! ## Sample data -/

/-- A node name. -/
def sampleAdvertiser : DeviceAdvertiser := { nodeName := "node-1" }

/-- A codec writing under one annotation key. -/
def sampleCodec : AnnotationCodec :=
  { key := "node.alpha/DeviceInformation", encode := fun nodeInfo => nodeInfo.Name }

/-- A snapshot with four devices, three of them allocatable. -/
def sampleSnapshot : NodeInfo :=
  { Name := "node-1",
    KubeCap := { entries := [("nvidia.com/gpu", 4)], nodup := by simp },
    KubeAlloc := { entries := [("nvidia.com/gpu", 3)], nodup := by simp } }

/-- A node record as the kubelet registers it, without device resources. -/
def sampleNode : Node :=
  { ObjectMeta := { Name := "node-1", Annotations := GoMap.nil },
    Status :=
      { Capacity := GoMap.mk (fun k => if k = "cpu" then some (NewQuantity 8 Format.DecimalSI) else none),
        Allocatable := GoMap.mk (fun k => if k = "cpu" then some (NewQuantity 7 Format.DecimalSI) else none) } }

/-- The sample node after the sample snapshot has been written into it. -/
def samplePatchedNode : Node :=
  { ObjectMeta := NodeInfoToAnnotation sampleCodec sampleNode.ObjectMeta sampleSnapshot,
    Status :=
      { Capacity := GoMap.mk (fun k =>
          if k = "nvidia.com/gpu" then some (NewQuantity 4 Format.DecimalSI)
          else if k = "cpu" then some (NewQuantity 8 Format.DecimalSI) else none),
        Allocatable := GoMap.mk (fun k =>
          if k = "nvidia.com/gpu" then some (NewQuantity 3 Format.DecimalSI)
          else if k = "cpu" then some (NewQuantity 7 Format.DecimalSI) else none) } }

/-- Collaborators that all answer: the device manager hands out the sample
snapshot and the API server stores `stored`. -/
def reachable (stored : Node) : Env :=
  { getErr := none,
    UpdateNodeInfo := fun _ => sampleSnapshot,
    patchResponse := .ok stored }

/-- Collaborators with an unreachable API server: the fetch fails. -/
def unreachable : Env :=
  { getErr := some (GoError.external "connection refused"),
    UpdateNodeInfo := fun _ => sampleSnapshot,
    patchResponse := .error (GoError.external "connection refused") }

/-- Collaborators where the fetch works and the patch request is rejected. -/
def patchRejected : Env :=
  { getErr := none,
    UpdateNodeInfo := fun _ => sampleSnapshot,
    patchResponse := .error (GoError.external "forbidden") }

/-- A world holding the sample node, before any call. -/
def sampleWorld : World := { remote := sampleNode, calls := [] }

/-- A host whose hostname is the override when one is given and cannot be
determined otherwise, with one address on its default-route interface. -/
def sampleHost : Host :=
  { GetHostname := fun hostnameOverride =>
      if hostnameOverride = "" then ("", some (GoError.external "hostname could not be determined"))
      else (hostnameOverride, none),
    ParseIP := fun text => if text = "10.0.0.9" then some [10, 0, 0, 9] else none,
    ChooseHostInterface := (some [192, 168, 1, 7], none),
    ipString := fun ip =>
      if ip = some [10, 0, 0, 9] then "10.0.0.9"
      else if ip = some [192, 168, 1, 7] then "192.168.1.7"
      else "<nil>" }

/-- The arguments passed by `StartDeviceAdvertiser` (line 151). -/
def sampleArgs : LoopArgs :=
  { da := sampleAdvertiser, codec := sampleCodec, intervalMs := 20000, tryAgainIntervalMs := 5000 }

/-- A loop entered at clock reading 0: the attempt at 20.000000001 s fails, the
retry at 25.000000001 s succeeds and returns at 25.1 s, then the interval ticker
fires at 40 s. -/
def retrySuccessEvents : List Event :=
  [Event.tick 20000000001 unreachable 20000000002,
   Event.tick 25000000001 (reachable samplePatchedNode) 25100000000,
   Event.tick 40000000000 (reachable samplePatchedNode) 40100000000]

theorem lookupEntry_nil (key : String) : lookupEntry [] key = none := rfl

theorem lookupEntry_cons (k0 : String) (v0 : Int) (rest : List (String × Int)) (key : String) :
    lookupEntry ((k0, v0) :: rest) key = if k0 = key then some v0 else lookupEntry rest key := by
  unfold lookupEntry
  by_cases h : k0 = key
  · simp [List.find?_cons, h]
  · simp [List.find?_cons, h]

theorem lookupEntry_eq_none_of_not_mem (es : List (String × Int)) (key : String)
    (h : key ∉ es.map Prod.fst) : lookupEntry es key = none := by
  induction es with
  | nil => rfl
  | cons e rest ih =>
    obtain ⟨k0, v0⟩ := e
    simp only [List.map_cons, List.mem_cons, not_or] at h
    rw [lookupEntry_cons, if_neg (fun hk => h.1 hk.symm)]
    exact ih h.2

/-- Writing a snapshot into a non-nil map never panics, and afterwards every
key of the snapshot holds its decimal quantity while the other keys are kept. -/
theorem writeResources_mk (es : List (String × Int)) (hnd : (es.map Prod.fst).Nodup)
    (f : String → Option Quantity) :
    writeResources (GoMap.mk f) es = .ok (GoMap.mk (fun k =>
      match lookupEntry es k with
      | some v => some (NewQuantity v Format.DecimalSI)
      | none => f k)) := by
  induction es generalizing f with
  | nil => rfl
  | cons e rest ih =>
    obtain ⟨k0, v0⟩ := e
    simp only [List.map_cons, List.nodup_cons] at hnd
    simp only [writeResources, GoMap.assign]
    rw [ih hnd.2]
    congr 2
    funext k
    rw [lookupEntry_cons]
    by_cases hk : k0 = k
    · subst hk
      simp [lookupEntry_eq_none_of_not_mem rest k0 hnd.1]
    · have hk' : ¬ k = k0 := fun h => hk h.symm
      simp [hk, hk']

theorem writeResources_nil_ok (es : List (String × Int)) (m' : GoMap Quantity)
    (h : writeResources GoMap.nil es = .ok m') : es = [] ∧ m' = GoMap.nil := by
  cases es with
  | nil =>
    simp only [writeResources] at h
    injection h with h
    exact ⟨rfl, h.symm⟩
  | cons e rest =>
    obtain ⟨k0, v0⟩ := e
    simp [writeResources, GoMap.assign] at h

/-- What a completed resource loop leaves behind, and that running it again
changes nothing. -/
theorem writeResources_ok (es : List (String × Int)) (hnd : (es.map Prod.fst).Nodup)
    (m m' : GoMap Quantity) (h : writeResources m es = .ok m') :
    (∀ k v, lookupEntry es k = some v → m'.get? k = some (NewQuantity v Format.DecimalSI)) ∧
    (∀ k, lookupEntry es k = none → m'.get? k = m.get? k) ∧
    writeResources m' es = .ok m' := by
  cases m with
  | nil =>
    obtain ⟨hes, hm⟩ := writeResources_nil_ok es m' h
    subst hes
    subst hm
    refine ⟨?_, ?_, rfl⟩
    · intro k v hv
      simp [lookupEntry_nil] at hv
    · intro k _
      rfl
  | mk f =>
    rw [writeResources_mk es hnd f] at h
    injection h with h
    subst h
    refine ⟨?_, ?_, ?_⟩
    · intro k v hv
      simp [GoMap.get?, hv]
    · intro k hv
      simp [GoMap.get?, hv]
    · rw [writeResources_mk es hnd]
      congr 2
      funext k
      cases lookupEntry es k <;> rfl

/-! ## `patchResources` -/

theorem NodeInfoToAnnotation_idem (codec : AnnotationCodec) (objMeta : ObjectMeta)
    (nodeInfo : NodeInfo) :
    NodeInfoToAnnotation codec ( NodeInfoToAnnotation codec objMeta nodeInfo) nodeInfo =
      NodeInfoToAnnotation codec objMeta nodeInfo := by
  simp only [ NodeInfoToAnnotation, GoMap.get?]
  congr 2
  funext k
  by_cases hk : k = codec.key <;> simp [hk]

/-- The shape of a modified record that was built without a panic. -/
theorem updatedNode_ok (codec : AnnotationCodec) (node node' : Node) (nodeInfo : NodeInfo)
    (h : updatedNode codec node nodeInfo = .ok node') :
    ∃ cap alloc,
      writeResources node.Status.Capacity nodeInfo.KubeCap.entries = .ok cap ∧
      writeResources node.Status.Allocatable nodeInfo.KubeAlloc.entries = .ok alloc ∧
      node' = { ObjectMeta := NodeInfoToAnnotation codec node.ObjectMeta nodeInfo,
                Status := { Capacity := cap, Allocatable := alloc } } := by
  simp only [updatedNode, Node.DeepCopy] at h
  cases hc : writeResources node.Status.Capacity nodeInfo.KubeCap.entries with
  | error p => simp [hc] at h
  | ok cap =>
    cases ha : writeResources node.Status.Allocatable nodeInfo.KubeAlloc.entries with
    | error p => simp [hc, ha] at h
    | ok alloc =>
      simp only [hc, ha] at h
      injection h with h
      exact ⟨cap, alloc, rfl, rfl, h.symm⟩

/-- The three outcomes of `patchResources` once the fetch has succeeded or failed. -/
theorem patchResources_eq (da : DeviceAdvertiser) (codec : AnnotationCodec) (env : Env)
    (w : World) :
    patchResources da codec env w =
      match env.getErr with
      | some err =>
        .ok (some (GoError.errorf "error getting current node %q: %v" da.nodeName err),
          { remote := w.remote, calls := w.calls ++ [Call.getNode da.nodeName] })
      | none =>
        match updatedNode codec w.remote (snapshot da env) with
        | .error p => .error p
        | .ok newNode =>
          match env.patchResponse with
          | .error err =>
            .ok (some err,
              { remote := w.remote,
                calls := w.calls ++ [Call.getNode da.nodeName, Call.updateNodeInfo da.nodeName,
                  Call.patchNodeMetadata da.nodeName w.remote newNode] })
          | .ok stored =>
            .ok (none,
              { remote := stored,
                calls := w.calls ++ [Call.getNode da.nodeName, Call.updateNodeInfo da.nodeName,
                  Call.patchNodeMetadata da.nodeName w.remote newNode] }) := by
  unfold patchResources PatchNodeMetadata
  cases env.getErr with
  | some err => rfl
  | none =>
    simp only
    cases updatedNode codec w.remote (snapshot da env) with
    | error p => rfl
    | ok newNode =>
      cases env.patchResponse with
      | error err => simp
      | ok stored => simp

/-- On a record whose resource maps are not nil the modified record is always
built: the resource loops cannot panic. -/
theorem updatedNode_of_nonNil (codec : AnnotationCodec) (node : Node) (nodeInfo : NodeInfo)
    (hcap : node.Status.Capacity.isNil = false) (halloc : node.Status.Allocatable.isNil = false) :
    ∃ newNode, updatedNode codec node nodeInfo = .ok newNode := by
  obtain ⟨objMeta, ⟨cap, alloc⟩⟩ := node
  cases cap with
  | nil => simp [GoMap.isNil] at hcap
  | mk f =>
    cases alloc with
    | nil => simp [GoMap.isNil] at halloc
    | mk g =>
      simp only [updatedNode, Node.DeepCopy, writeResources_mk _ nodeInfo.KubeCap.nodup,
        writeResources_mk _ nodeInfo.KubeAlloc.nodup]
      exact ⟨_, rfl⟩

/-- C1: on a fetched record with non-nil capacity and allocatable maps the call
returns nil as soon as the API server answers the fetch and accepts the patch;
and whenever `patchResources` returns nil, the call trace ends with the fetch,
the device manager query and one patch submission, where the record submitted
as modified holds, under every key of the snapshot map KubeCap, that value as a
decimal quantity in Capacity, likewise for KubeAlloc in Allocatable, and the
record submitted as original is the fetched record itself. -/
theorem patchResources_submits_snapshot (da : DeviceAdvertiser) (codec : AnnotationCodec)
    (env : Env) (w : World) :
    (w.remote.Status.Capacity.isNil = false → w.remote.Status.Allocatable.isNil = false →
      env.getErr = none → ∀ stored, env.patchResponse = .ok stored →
      ∃ w', patchResources da codec env w = .ok (none, w')) ∧
    (∀ w', patchResources da codec env w = .ok (none, w') →
      ∃ newNode,
        updatedNode codec w.remote (snapshot da env) = .ok newNode ∧
        w'.calls = w.calls ++ [Call.getNode da.nodeName, Call.updateNodeInfo da.nodeName,
          Call.patchNodeMetadata da.nodeName w.remote newNode] ∧
        (∀ key val, (snapshot da env).KubeCap.get? key = some val →
          newNode.Status.Capacity.get? key = some (NewQuantity val Format.DecimalSI)) ∧
        (∀ key val, (snapshot da env).KubeAlloc.get? key = some val →
          newNode.Status.Allocatable.get? key = some (NewQuantity val Format.DecimalSI))) := by
  constructor
  · intro hcap halloc hg stored hp
    obtain ⟨newNode, hu⟩ := updatedNode_of_nonNil codec w.remote (snapshot da env) hcap halloc
    rw [patchResources_eq, hg]
    simp only [hu, hp]
    exact ⟨_, rfl⟩
  · intro w' h
    rw [patchResources_eq] at h
    cases hg : env.getErr with
    | some cause => simp [hg] at h
    | none =>
      cases hu : updatedNode codec w.remote (snapshot da env) with
      | error p => simp [hg, hu] at h
      | ok newNode =>
        cases hp : env.patchResponse with
        | error e => simp [hg, hu, hp] at h
        | ok stored =>
          simp only [hg, hu, hp] at h
          injection h with h
          injection h with _ h
          subst h
          obtain ⟨cap, alloc, hcap, halloc, hnew⟩ := updatedNode_ok codec _ _ _ hu
          subst hnew
          refine ⟨_, rfl, rfl, ?_, ?_⟩
          · intro key val hv
            exact (writeResources_ok _ (snapshot da env).KubeCap.nodup _ _ hcap).1 key val hv
          · intro key val hv
            exact (writeResources_ok _ (snapshot da env).KubeAlloc.nodup _ _ halloc).1 key val hv

/-- C1 on the sample world: the call returns nil, and the submitted record has
four devices in Capacity and three in Allocatable. -/
theorem patchResources_submits_snapshot_witness :
    patchResources sampleAdvertiser sampleCodec (reachable samplePatchedNode) sampleWorld =
      .ok (none, { remote := samplePatchedNode,
                   calls := [Call.getNode "node-1", Call.updateNodeInfo "node-1",
                     Call.patchNodeMetadata "node-1" sampleNode samplePatchedNode] }) ∧
    sampleSnapshot.KubeCap.get? "nvidia.com/gpu" = some 4 ∧
    sampleSnapshot.KubeAlloc.get? "nvidia.com/gpu" = some 3 ∧
    ∃ newNode,
      updatedNode sampleCodec sampleNode sampleSnapshot = .ok newNode ∧
      [Call.getNode "node-1", Call.updateNodeInfo "node-1",
        Call.patchNodeMetadata "node-1" sampleNode samplePatchedNode] =
      [Call.getNode "node-1", Call.updateNodeInfo "node-1",
        Call.patchNodeMetadata "node-1" sampleNode newNode] ∧
      (∀ key val, sampleSnapshot.KubeCap.get? key = some val →
        newNode.Status.Capacity.get? key = some (NewQuantity val Format.DecimalSI)) ∧
      (∀ key val, sampleSnapshot.KubeAlloc.get? key = some val →
        newNode.Status.Allocatable.get? key = some (NewQuantity val Format.DecimalSI)) :=
  ⟨rfl, by decide, by decide,
    (patchResources_submits_snapshot sampleAdvertiser sampleCodec
      (reachable samplePatchedNode) sampleWorld).2 _ rfl⟩

/-- C6: a failed fetch makes `patchResources` return an error after the fetch
alone (no device manager query, no patch submission); and whenever
`patchResources` returns an error the stored node record is the one from before
the call, the error being that of the fetch or, returned as it is, that of the
patch submission. -/
theorem patchResources_error_keeps_remote (da : DeviceAdvertiser) (codec : AnnotationCodec)
    (env : Env) (w : World) :
    (∀ cause, env.getErr = some cause →
      patchResources da codec env w =
        .ok (some (GoError.errorf "error getting current node %q: %v" da.nodeName cause),
          { remote := w.remote, calls := w.calls ++ [Call.getNode da.nodeName] })) ∧
    (∀ err w', patchResources da codec env w = .ok (some err, w') →
      w'.remote = w.remote ∧
      ((∃ cause, env.getErr = some cause) ∨
        (env.getErr = none ∧ env.patchResponse = .error err))) := by
  constructor
  · intro cause hg
    rw [patchResources_eq, hg]
  · intro err w' h
    rw [patchResources_eq] at h
    cases hg : env.getErr with
    | some cause =>
      simp only [hg] at h
      injection h with h
      injection h with _ h
      subst h
      exact ⟨rfl, Or.inl ⟨cause, rfl⟩⟩
    | none =>
      cases hu : updatedNode codec w.remote (snapshot da env) with
      | error p => simp [hg, hu] at h
      | ok newNode =>
        cases hp : env.patchResponse with
        | ok stored => simp [hg, hu, hp] at h
        | error e =>
          simp only [hg, hu, hp] at h
          injection h with h
          injection h with h1 h2
          injection h1 with h1
          subst h1
          subst h2
          exact ⟨rfl, Or.inr ⟨rfl, rfl⟩⟩

/-- C6 on the sample world: once with an unreachable API server, once with a
rejected patch. -/
theorem patchResources_error_keeps_remote_witness :
    patchResources sampleAdvertiser sampleCodec unreachable sampleWorld =
      .ok (some (GoError.errorf "error getting current node %q: %v" "node-1"
            (GoError.external "connection refused")),
        { remote := sampleNode, calls := [Call.getNode "node-1"] }) ∧
    patchResources sampleAdvertiser sampleCodec patchRejected sampleWorld =
      .ok (some (GoError.external "forbidden"),
        { remote := sampleNode,
          calls := [Call.getNode "node-1", Call.updateNodeInfo "node-1",
            Call.patchNodeMetadata "node-1" sampleNode samplePatchedNode] }) ∧
    (sampleNode = sampleNode ∧
      ((∃ cause, patchRejected.getErr = some cause) ∨
        (patchRejected.getErr = none ∧
          patchRejected.patchResponse = .error (GoError.external "forbidden")))) :=
  ⟨(patchResources_error_keeps_remote sampleAdvertiser sampleCodec unreachable sampleWorld).1
      (GoError.external "connection refused") rfl,
    rfl,
    (patchResources_error_keeps_remote sampleAdvertiser sampleCodec patchRejected sampleWorld).2
      (GoError.external "forbidden") _ rfl⟩

/-- C7: the record update of `patchResources` is idempotent. If building the
modified record from `node` and a snapshot yields `node'`, then building it
from `node'` and the same snapshot yields `node'` again; so a call that fetches
`node'` while the snapshot is unchanged submits `node'` as original and as
modified, and returns nil once the API server has answered the fetch and the
submission. -/
theorem patchResources_idempotent (codec : AnnotationCodec) (node node' : Node)
    (nodeInfo : NodeInfo) (h : updatedNode codec node nodeInfo = .ok node') :
    updatedNode codec node' nodeInfo = .ok node' ∧
    ∀ (da : DeviceAdvertiser) (env : Env) (w : World) (stored : Node),
      w.remote = node' → snapshot da env = nodeInfo → env.getErr = none →
      env.patchResponse = .ok stored →
      patchResources da codec env w =
        .ok (none,
          { remote := stored,
            calls := w.calls ++ [Call.getNode da.nodeName, Call.updateNodeInfo da.nodeName,
              Call.patchNodeMetadata da.nodeName node' node'] }) := by
  obtain ⟨cap, alloc, hcap, halloc, hnew⟩ := updatedNode_ok codec _ _ _ h
  have hidem : updatedNode codec node' nodeInfo = .ok node' := by
    subst hnew
    simp only [updatedNode, Node.DeepCopy]
    rw [(writeResources_ok _ nodeInfo.KubeCap.nodup _ _ hcap).2.2]
    simp only
    rw [(writeResources_ok _ nodeInfo.KubeAlloc.nodup _ _ halloc).2.2]
    simp only [NodeInfoToAnnotation_idem]
  refine ⟨hidem, ?_⟩
  intro da env w stored hw hs hg hp
  rw [patchResources_eq, hg, hs, hw]
  simp only [hidem, hp]

/-- C7 on the sample node: updating the patched sample node gives it back. -/
theorem patchResources_idempotent_witness :
    updatedNode sampleCodec sampleNode sampleSnapshot = .ok samplePatchedNode ∧
    updatedNode sampleCodec samplePatchedNode sampleSnapshot = .ok samplePatchedNode :=
  ⟨rfl, (patchResources_idempotent sampleCodec sampleNode samplePatchedNode sampleSnapshot rfl).1⟩

/-! ## `AdvertiseLoop` -/

theorem sampleArgs_intervalDuration : sampleArgs.intervalDuration = 20000000000 := by decide

theorem sampleArgs_tryAgainDuration : sampleArgs.tryAgainDuration = 5000000000 := by decide

theorem step_done_normal (a : LoopArgs) (s : LoopState) (last : Int) (h : s.ctl = Ctl.normal last) :
    step a s Event.done = some { s with ctl := Ctl.returned } := by
  simp only [step, h]

theorem step_done_retry (a : LoopArgs) (s : LoopState) (last : Int) (h : s.ctl = Ctl.retry last) :
    step a s Event.done = some { s with ctl := Ctl.returned } := by
  simp only [step, h]

theorem step_returned (a : LoopArgs) (s : LoopState) (h : s.ctl = Ctl.returned) (e : Event) :
    step a s e = none := by
  cases e <;> simp only [step, h]

theorem step_skip (a : LoopArgs) (s : LoopState) (last now : Int) (env : Env) (finish : Int)
    (h : s.ctl = Ctl.normal last) (hg : ¬ Since now last > a.intervalDuration) :
    step a s (Event.tick now env finish) = some s := by
  simp only [step, h, if_neg hg]

/-- C3, as the code has it: in the normal state a tick of the interval ticker
makes the loop call `patchResources` exactly when the time since
`lastSuccessfulPatch` is strictly greater than the interval; a tick at which
that time equals the interval leaves the state as it is, without an attempt. -/
theorem normal_tick_attempt_iff (a : LoopArgs) (s : LoopState) (last now : Int) (env : Env)
    (finish : Int) (h : s.ctl = Ctl.normal last) :
    (attemptMade a s (Event.tick now env finish) = true ↔
      Since now last > a.intervalDuration) ∧
    (Since now last = a.intervalDuration → step a s (Event.tick now env finish) = some s) := by
  constructor
  · by_cases hg : Since now last > a.intervalDuration
    · simp only [hg, iff_true]
      simp only [attemptMade, step, h, if_pos hg]
      rcases patchResources a.da a.codec env s.world with p | ⟨_ | err, w⟩
      · simp
      · simp
      · by_cases hr : a.tryAgainDuration ≤ 0 <;> simp [hr]
    · simp only [hg, iff_false]
      simp [attemptMade, step_skip a s last now env finish h hg]
  · intro he
    exact step_skip a s last now env finish h (by omega)

/-- C3 as amended, on a tick one nanosecond after a full interval. -/
theorem normal_tick_attempt_iff_witness :
    (attemptMade sampleArgs (start sampleArgs 0 sampleWorld)
        (Event.tick 20000000001 (reachable samplePatchedNode) 20100000000) = true ↔
      Since 20000000001 0 > sampleArgs.intervalDuration) ∧
    (Since 20000000001 0 = sampleArgs.intervalDuration →
      step sampleArgs (start sampleArgs 0 sampleWorld)
        (Event.tick 20000000001 (reachable samplePatchedNode) 20100000000) =
          some (start sampleArgs 0 sampleWorld)) :=
  normal_tick_attempt_iff sampleArgs (start sampleArgs 0 sampleWorld) 0 20000000001
    (reachable samplePatchedNode) 20100000000 (by decide)

/-- C3 fails as stated: with the arguments of `StartDeviceAdvertiser`, a loop
in the normal state whose last success was at 0 receives a tick at exactly one
interval (20 s); the elapsed time is greater than or equal to the interval, yet
no attempt is made. -/
theorem normal_tick_at_exact_interval_skipped :
    (start sampleArgs 0 sampleWorld).ctl = Ctl.normal 0 ∧
    ¬ (attemptMade sampleArgs (start sampleArgs 0 sampleWorld)
          (Event.tick 20000000000 (reachable samplePatchedNode) 20100000000) = true ↔
        Since 20000000000 0 ≥ sampleArgs.intervalDuration) := by
  decide

/-- C2 at the failing input: entered at 0, the loop fails at 20.000000001 s and
succeeds in the retry state at 25.000000001 s (returning at 25.1 s). It is then
back in the normal state with `lastSuccessfulPatch` still 0, and the tick of
the interval ticker at 40 s makes an attempt although less than one interval
has passed since the success. -/
theorem retry_success_keeps_stale_timestamp :
    (AdvertiseLoop sampleArgs 0 sampleWorld (retrySuccessEvents.take 2)).ctl = Ctl.normal 0 ∧
    (AdvertiseLoop sampleArgs 0 sampleWorld retrySuccessEvents).attempts =
      [{ start := 20000000001, finish := 20000000002, inRetry := false, succeeded := false },
       { start := 25000000001, finish := 25100000000, inRetry := true, succeeded := true },
       { start := 40000000000, finish := 40100000000, inRetry := false, succeeded := true }] ∧
    40000000000 < 25100000000 + sampleArgs.intervalDuration := by
  decide

/-- C5: from either waiting state the cancellation event makes the loop return,
leaving world and attempt log as they are; the returned state has no step; and
whatever events follow the cancellation, no attempt is added to the log. -/
theorem cancellation_stops (a : LoopArgs) (s : LoopState)
    (h : (∃ last, s.ctl = Ctl.normal last) ∨ (∃ last, s.ctl = Ctl.retry last)) :
    step a s Event.done = some { ctl := Ctl.returned, world := s.world, attempts := s.attempts } ∧
    (∀ e, step a { ctl := Ctl.returned, world := s.world, attempts := s.attempts } e = none) ∧
    (∀ es, run a s (Event.done :: es) =
      { ctl := Ctl.returned, world := s.world, attempts := s.attempts }) := by
  have hstep : step a s Event.done =
      some { ctl := Ctl.returned, world := s.world, attempts := s.attempts } := by
    rcases h with ⟨last, h⟩ | ⟨last, h⟩
    · exact step_done_normal a s last h
    · exact step_done_retry a s last h
  have hterm : ∀ e, step a { ctl := Ctl.returned, world := s.world, attempts := s.attempts } e
      = none := fun e => step_returned a _ rfl e
  refine ⟨hstep, hterm, ?_⟩
  intro es
  simp only [run, hstep]
  cases es with
  | nil => rfl
  | cons e es => simp only [run, hterm e]

/-- C5 on a loop that has just been entered. -/
theorem cancellation_stops_witness :
    step sampleArgs (start sampleArgs 0 sampleWorld) Event.done =
      some { ctl := Ctl.returned, world := sampleWorld, attempts := [] } ∧
    (∀ e, step sampleArgs { ctl := Ctl.returned, world := sampleWorld, attempts := [] } e
      = none) ∧
    (∀ es, run sampleArgs (start sampleArgs 0 sampleWorld) (Event.done :: es) =
      { ctl := Ctl.returned, world := sampleWorld, attempts := [] }) :=
  cancellation_stops sampleArgs (start sampleArgs 0 sampleWorld) (Or.inl ⟨0, by decide⟩)

/-! ### Retrying -/

/-- C8, as the code has it: with a non-empty NodeIP flag, whenever the node
name is obtained, `GetHostName` returns the flag itself as the resolved IP
together with the node name, whatever `net.ParseIP` and the host interfaces
would answer; when the node name cannot be obtained, it returns the empty IP
and that error. -/
theorem GetHostName_with_nodeIP (h : Host) (f : KubeletFlags) (hip : f.NodeIP ≠ "") :
    (∀ nodeName, h.GetHostname f.HostnameOverride = (nodeName, none) →
      GetHostName h f = (f.NodeIP, nodeName, none)) ∧
    (∀ nodeName err, h.GetHostname f.HostnameOverride = (nodeName, some err) →
      GetHostName h f = ("", nodeName, some err)) := by
  constructor
  · intro nodeName hn
    simp only [GetHostName, hn, if_pos hip]
  · intro nodeName err hn
    simp only [GetHostName, hn]

/-- C8 as amended, on a host with a hostname override. -/
theorem GetHostName_with_nodeIP_witness :
    GetHostName sampleHost { HostnameOverride := "node-1", NodeIP := "10.0.0.5" } =
      ("10.0.0.5", "node-1", none) :=
  (GetHostName_with_nodeIP sampleHost { HostnameOverride := "node-1", NodeIP := "10.0.0.5" }
    (by decide)).1 "node-1" (by decide)

/-- C8 fails as stated: with NodeIP set to 10.0.0.5 on a host whose hostname
cannot be determined, the resolved IP is the empty string, not 10.0.0.5. -/
theorem GetHostName_nodeIP_lost_on_hostname_error :
    GetHostName sampleHost { HostnameOverride := "", NodeIP := "10.0.0.5" } =
      ("", "", some (GoError.external "hostname could not be determined")) ∧
    (GetHostName sampleHost { HostnameOverride := "", NodeIP := "10.0.0.5" }).1 ≠ "10.0.0.5" := by
  decide

/-- C9: with an empty NodeIP flag, a node name that is an IP literal gives that
address as the resolved IP; otherwise the address chosen from the host
interfaces is the resolved IP; the call fails exactly when the node name cannot
be obtained or, the node name being no IP literal, no interface address can be
determined, and then the IP is empty; on success the returned hostname is the
node name obtained. -/
theorem GetHostName_without_nodeIP (h : Host) (f : KubeletFlags) (hip : f.NodeIP = "") :
    (∀ nodeName addr, h.GetHostname f.HostnameOverride = (nodeName, none) →
      h.ParseIP nodeName = some addr →
      GetHostName h f = (h.ipString (some addr), nodeName, none)) ∧
    (∀ nodeName addr, h.GetHostname f.HostnameOverride = (nodeName, none) →
      h.ParseIP nodeName = none → h.ChooseHostInterface = (addr, none) →
      GetHostName h f = (h.ipString addr, nodeName, none)) ∧
    ((GetHostName h f).2.2 ≠ none ↔
      ((h.GetHostname f.HostnameOverride).2 ≠ none ∨
        (h.ParseIP (h.GetHostname f.HostnameOverride).1 = none ∧
          h.ChooseHostInterface.2 ≠ none))) ∧
    ((GetHostName h f).2.2 ≠ none → (GetHostName h f).1 = "") ∧
    ((GetHostName h f).2.2 = none →
      (GetHostName h f).2.1 = (h.GetHostname f.HostnameOverride).1) := by
  refine ⟨?_, ?_, ?_, ?_, ?_⟩
  · intro nodeName addr hn hp
    simp [GetHostName, hn, hip, hp]
  · intro nodeName addr hn hp hc
    simp [GetHostName, hn, hip, hp, hc]
  all_goals
    rcases hn : h.GetHostname f.HostnameOverride with ⟨nodeName, _ | err⟩
    · rcases hp : h.ParseIP nodeName with _ | addr
      · rcases hc : h.ChooseHostInterface with ⟨addr, _ | err⟩ <;>
          simp [GetHostName, hn, hip, hp, hc]
      · simp [GetHostName, hn, hip, hp]
    · simp [GetHostName, hn]

/-- C9 on the sample host: an override that is an IP literal, and one that
is not. -/
theorem GetHostName_without_nodeIP_witness :
    GetHostName sampleHost { HostnameOverride := "10.0.0.9", NodeIP := "" } =
      ("10.0.0.9", "10.0.0.9", none) ∧
    GetHostName sampleHost { HostnameOverride := "node-1", NodeIP := "" } =
      ("192.168.1.7", "node-1", none) :=
  ⟨(GetHostName_without_nodeIP sampleHost { HostnameOverride := "10.0.0.9", NodeIP := "" }
      rfl).1 "10.0.0.9" [10, 0, 0, 9] (by decide) (by decide),
   (GetHostName_without_nodeIP sampleHost { HostnameOverride := "node-1", NodeIP := "" }
      rfl).2.1 "node-1" (some [192, 168, 1, 7]) (by decide) (by decide) (by decide)⟩

end KubeAdvertise
